import Mathlib

/-!
Shallow embedding of the core of the text-adventure game
(Onuchii/Advanced-Programming-Assignment): entity model (characters,
items, equipment), the pickup/drop state machine, the combat resolver,
the Orc day/night toggle, and the random board-population routine.

Definitions are translated from the C++ sources:
  - items.hpp          (Item / Weapon / Armour / Shield / Ring classes)
  - characters.hpp     (Character class, race subclasses, pickUp, totals, drops)
  - characters.cpp     (race-specific successfulDef implementations)
  - main.cpp           (attack, day/night cycle, defeated check)
  - board.hpp/.cpp     (Square, Board, populateBoard)

Modelling conventions:
  - C++ `int` fields are modelled as `Int` (no overflow occurs in the
    quantities the claims are about).
  - C++ `float` chance fields are modelled as `ℚ`; every chance constant
    the claims depend on (0.25, 0.5, 1.0) is exactly representable in
    float, and random rolls are taken as arbitrary rational inputs.
  - `rand()` draws are passed in explicitly as inputs (a list of draws
    for board population, individual rolls for combat).
  - Console output is dropped except where a claim is about a report
    being made, in which case the report is modelled as a Bool flag.
-/

/-- The five character races (the five subclasses of `Character` in
characters.hpp).  `dynamic_cast<Orc*>` in main.cpp is modelled as a test
on this tag. -/
inductive Race where
  | human
  | elf
  | dwarf
  | hobbit
  | orc
deriving DecidableEq, Repr

/-- Data of the C++ `Weapon` class (items.hpp): name, weight, attack_inc. -/
structure WeaponData where
  name : String
  weight : Int
  attack_inc : Int
deriving DecidableEq, Repr

/-- Data of the C++ `Armour` class (items.hpp): name, weight, defence_inc,
attack_dec.  The C++ `Shield` class publicly derives from `Armour` and adds
no fields; `isShield` records the dynamic type, so that the behaviour of
`dynamic_pointer_cast<Armour>` (which also succeeds on a `Shield`) can be
modelled faithfully. -/
structure ArmourData where
  name : String
  weight : Int
  defence_inc : Int
  attack_dec : Int
  isShield : Bool
deriving DecidableEq, Repr

/-- Data of the C++ `Ring` class (items.hpp): name, weight, health
(bonus or penalty), strength_inc. -/
structure RingData where
  name : String
  weight : Int
  health : Int
  strength_inc : Int
deriving DecidableEq, Repr

/-- The concrete item kinds of the game.  The program only ever creates
instances of the four concrete classes `Weapon`, `Armour`, `Shield`,
`Ring` (ItemsDB.h), so an item is one of those four. -/
inductive Item where
  | weapon (w : WeaponData)
  | armour (name : String) (weight defence_inc attack_dec : Int)
  | shield (name : String) (weight defence_inc attack_dec : Int)
  | ring (r : RingData)
deriving DecidableEq, Repr

/-- Weight field of the `Item` base class (items.hpp). -/
def Item.weight : Item → Int
  | .weapon w => w.weight
  | .armour _ wt _ _ => wt
  | .shield _ wt _ _ => wt
  | .ring r => r.weight

/-- `dynamic_pointer_cast<Weapon>(item)`: succeeds exactly on a `Weapon`. -/
def castWeapon : Item → Option WeaponData
  | .weapon w => some w
  | _ => none

/-- `dynamic_pointer_cast<Armour>(item)`: succeeds on an `Armour` and
also on a `Shield`, because in items.hpp `class Shield : public Armour`. -/
def castArmour : Item → Option ArmourData
  | .armour n wt d a => some ⟨n, wt, d, a, false⟩
  | .shield n wt d a => some ⟨n, wt, d, a, true⟩
  | _ => none

/-- `dynamic_pointer_cast<Shield>(item)`: succeeds exactly on a `Shield`. -/
def castShield : Item → Option ArmourData
  | .shield n wt d a => some ⟨n, wt, d, a, true⟩
  | _ => none

/-- `dynamic_pointer_cast<Ring>(item)`: succeeds exactly on a `Ring`. -/
def castRing : Item → Option RingData
  | .ring r => some r
  | _ => none

/-- The C++ `Character` class (characters.hpp).  `orcIsNight` models the
`isNight` member that only the `Orc` subclass has; it is `false` (and
unused) for all other races. -/
structure Character where
  name : String
  race : Race
  attack : Int
  attack_chance : ℚ
  defence : Int
  defence_chance : ℚ
  health : Int
  strength : Int
  weapon : Option WeaponData := none
  armor : Option ArmourData := none
  shield : Option ArmourData := none
  ring : List RingData := []
  inventory : List Item := []
  orcIsNight : Bool := false
deriving DecidableEq, Repr

/-- `Human(n)` constructor: stats (30, 2/3, 20, 1/2, 60, 100). -/
def mkHuman (n : String) : Character :=
  { name := n, race := .human, attack := 30, attack_chance := mkRat 2 3,
    defence := 20, defence_chance := mkRat 1 2, health := 60, strength := 100 }

/-- `Elf(n)` constructor: stats (40, 1, 10, 1/4, 40, 70). -/
def mkElf (n : String) : Character :=
  { name := n, race := .elf, attack := 40, attack_chance := 1,
    defence := 10, defence_chance := mkRat 1 4, health := 40, strength := 70 }

/-- `Dwarf(n)` constructor: stats (30, 2/3, 20, 2/3, 50, 130). -/
def mkDwarf (n : String) : Character :=
  { name := n, race := .dwarf, attack := 30, attack_chance := mkRat 2 3,
    defence := 20, defence_chance := mkRat 2 3, health := 50, strength := 130 }

/-- `Hobbit(n)` constructor: stats (25, 1/3, 20, 2/3, 70, 85). -/
def mkHobbit (n : String) : Character :=
  { name := n, race := .hobbit, attack := 25, attack_chance := mkRat 1 3,
    defence := 20, defence_chance := mkRat 2 3, health := 70, strength := 85 }

/-- `Orc(n)` constructor: stats (25, 1/4, 10, 1/4, 50, 130), isNight = false. -/
def mkOrc (n : String) : Character :=
  { name := n, race := .orc, attack := 25, attack_chance := mkRat 1 4,
    defence := 10, defence_chance := mkRat 1 4, health := 50, strength := 130 }

/-- `Character::getCurrentWeight` (characters.hpp): sum of the weights of
the equipped weapon, armor, shield and all rings. -/
def getCurrentWeight (c : Character) : Int :=
  let t0 : Int := 0
  let t1 := match c.weapon with | some w => t0 + w.weight | none => t0
  let t2 := match c.armor with | some a => t1 + a.weight | none => t1
  let t3 := match c.shield with | some s => t2 + s.weight | none => t2
  c.ring.foldl (fun t r => t + r.weight) t3

/-- `Character::getTotalAttack` (characters.hpp): base attack, plus weapon
attack_inc, minus armor attack_dec, minus shield attack_dec, plus each
ring's strength_inc. -/
def getTotalAttack (c : Character) : Int :=
  let t0 := c.attack
  let t1 := match c.weapon with | some w => t0 + w.attack_inc | none => t0
  let t2 := match c.armor with | some a => t1 - a.attack_dec | none => t1
  let t3 := match c.shield with | some s => t2 - s.attack_dec | none => t2
  c.ring.foldl (fun t r => t + r.strength_inc) t3

/-- `Character::getTotalDefence` (characters.hpp): base defence plus armor
and shield defence_inc. -/
def getTotalDefence (c : Character) : Int :=
  let t0 := c.defence
  let t1 := match c.armor with | some a => t0 + a.defence_inc | none => t0
  match c.shield with | some s => t1 + s.defence_inc | none => t1

/-- `Character::getTotalStrength` (characters.hpp): base strength plus each
ring's strength_inc. -/
def getTotalStrength (c : Character) : Int :=
  c.ring.foldl (fun t r => t + r.strength_inc) c.strength

/-- `Character::getTotalHealth` (characters.hpp): the `health` field plus
each ring's health delta.  Note the C++ class has a single `health` member
serving both as current health and as the base of this computation. -/
def getTotalHealth (c : Character) : Int :=
  c.ring.foldl (fun t r => t + r.health) c.health

/-- `Character::pickUp` (characters.hpp, lines 599-629).  Returns the
C++ boolean result together with the updated character.  The weight check
compares against the base `strength` field.  The dynamic casts are tried
in source order: Weapon, Armour, Shield, Ring; since `Shield` derives
from `Armour`, the Armour cast already captures shields and the Shield
branch is unreachable.  The Weapon branch does not push to `inventory`;
the other branches do. -/
def pickUp (c : Character) (item : Item) : Bool × Character :=
  if getCurrentWeight c + item.weight > c.strength then
    (false, c)
  else
    match castWeapon item with
    | some w => (true, { c with weapon := some w })
    | none =>
      match castArmour item with
      | some a => (true, { c with armor := some a,
                                  inventory := c.inventory ++ [item] })
      | none =>
        match castShield item with
        | some s => (true, { c with shield := some s,
                                    inventory := c.inventory ++ [item] })
        | none =>
          match castRing item with
          | some r => (true, { c with ring := c.ring ++ [r],
                                      inventory := c.inventory ++ [item] })
          | none => (false, c)

/-- `Character::dropWeapon` (characters.hpp): clears the weapon slot if
occupied; otherwise only reports. -/
def dropWeapon (c : Character) : Character :=
  if c.weapon.isSome then { c with weapon := none } else c

/-- `Character::dropArmour` (characters.hpp): clears the armor slot if
occupied; otherwise only reports. -/
def dropArmour (c : Character) : Character :=
  if c.armor.isSome then { c with armor := none } else c

/-- `Character::dropShield` (characters.hpp): clears the shield slot if
occupied; otherwise only reports. -/
def dropShield (c : Character) : Character :=
  if c.shield.isSome then { c with shield := none } else c

/-- `Character::dropRing` (characters.hpp): erases the ring at `index`
when `0 <= index < ring.size()`; otherwise a no-op failure report. -/
def dropRing (c : Character) (index : Int) : Character :=
  if 0 ≤ index ∧ index < (c.ring.length : Int) then
    { c with ring := c.ring.eraseIdx index.toNat }
  else c

/-- Items from ItemsDB.h used in the claims. -/
def swordItem : Item := .weapon ⟨"Sword", 10, 10⟩

/-- Large Shield from ItemsDB.h: Shield("Large Shield", 30, 10, 5). -/
def largeShieldItem : Item := .shield "Large Shield" 30 10 5

/-- Ring of Life from ItemsDB.h: Ring("Ring of Life", 1, 10, 0). -/
def ringOfLifeItem : Item := .ring ⟨"Ring of Life", 1, 10, 0⟩

/-- Ring of Strength from ItemsDB.h: Ring("Ring of Strength", 1, -10, 50):
weight 1, health delta -10, strength bonus 50. -/
def ringOfStrengthData : RingData := ⟨"Ring of Strength", 1, -10, 50⟩

/-- `Character::successfulDef` (characters.cpp, line 21): the base-class
implementation has an empty body.  In characters.hpp the method is NOT
declared `virtual`, so the call `defender->successfulDef(attacker,
defender)` in main.cpp `attack` (where `defender` has static type
`Character*`) statically dispatches to this empty implementation,
whatever the defender's race. -/
def Character.successfulDef (_attacker defender : Character) : Character :=
  defender

/-- `Human::successfulDef` (characters.cpp): only prints a message. -/
def Human_successfulDef (d : Character) : Character := d

/-- `Dwarf::successfulDef` (characters.cpp): only prints a message. -/
def Dwarf_successfulDef (d : Character) : Character := d

/-- `Elf::successfulDef` (characters.cpp, lines 48-52): increments the
defender's health field by 1.  Dead code from `attack` (see
`Character.successfulDef`), but kept as the faithful translation of the
method body. -/
def Elf_successfulDef (d : Character) : Character :=
  { d with health := d.health + 1 }

/-- `Hobbit::successfulDef` (characters.cpp): subtracts `rand() % 6` from
the health field, flooring at 0; the draw is passed in explicitly. -/
def Hobbit_successfulDef (d : Character) (draw : Nat) : Character :=
  let h := d.health - (draw % 6 : Nat)
  { d with health := if h < 0 then 0 else h }

/-- `Orc::successfulDef` (characters.cpp): by day, subtracts
`max 0 (attacker.attack - defender.defence) / 4` (C++ truncating integer
division; the numerator is nonnegative) from the health field, flooring
at 0; by night, increments health by 1. -/
def Orc_successfulDef (attacker d : Character) : Character :=
  if d.orcIsNight = false then
    let temp0 := attacker.attack - d.defence
    let temp := if temp0 < 0 then 0 else temp0
    let damageTaken := Int.tdiv temp 4
    let h := d.health - damageTaken
    { d with health := if h < 0 then 0 else h }
  else
    { d with health := d.health + 1 }

/-- Result of one call to `attack` (main.cpp, lines 46-74): the updated
defender plus flags recording which console reports were made.
`defeatedReported` is the line-71 report inside `attack` itself, which is
skipped when the miss or defense-success branch returns early. -/
structure AttackResult where
  defender : Character
  missed : Bool
  defSuccess : Bool
  defeatedReported : Bool
deriving DecidableEq, Repr

/-- `attack(attacker, defender)` (main.cpp, lines 46-74) with the two
random rolls passed in explicitly.  Steps, in source order:
miss when `attackRoll > attacker.attack_chance`; defense success when
`defenceRoll < defender.defence_chance`, which calls the statically
dispatched (empty) `Character::successfulDef`; otherwise if
`getTotalAttack(attacker) > getTotalDefence(defender)` subtract the
difference from the defender's health, floor at 0, then set health to
`getTotalHealth(defender)` if health exceeds it (note `getTotalHealth`
is computed from the already-reduced health); otherwise the attack is
blocked.  Finally report defeat when `getTotalHealth(defender) <= 0`. -/
def attack (attacker defender : Character) (attackRoll defenceRoll : ℚ) :
    AttackResult :=
  if attackRoll > attacker.attack_chance then
    ⟨defender, true, false, false⟩
  else if defenceRoll < defender.defence_chance then
    ⟨Character.successfulDef attacker defender, false, true, false⟩
  else if getTotalAttack attacker > getTotalDefence defender then
    let damage := getTotalAttack attacker - getTotalDefence defender
    let h1 := defender.health - damage
    let d1 := { defender with health := if h1 < 0 then 0 else h1 }
    let d2 := if d1.health > getTotalHealth d1 then
                { d1 with health := getTotalHealth d1 }
              else d1
    ⟨d2, false, false, decide (getTotalHealth d2 ≤ 0)⟩
  else
    ⟨defender, false, false, decide (getTotalHealth defender ≤ 0)⟩

/-- The defeated check the main loop performs after a combat resolution
(main.cpp, line 378: `enemyOnSquare->getTotalHealth() <= 0`, and line 400
for the player): it is evaluated on `getTotalHealth`, not on the raw
`health` field. -/
def mainDefeatedCheck (r : AttackResult) : Bool :=
  decide (getTotalHealth r.defender ≤ 0)

/-- `Orc::setTimeOfDay` (characters.hpp, lines 974-987): overwrites the
attack / attack_chance / defence / defence_chance quadruple according to
the time of day and records the flag. -/
def setTimeOfDay (night : Bool) (c : Character) : Character :=
  if night then
    { c with orcIsNight := true, attack := 45, attack_chance := 1,
             defence := 25, defence_chance := mkRat 1 2 }
  else
    { c with orcIsNight := false, attack := 25, attack_chance := mkRat 1 4,
             defence := 10, defence_chance := mkRat 1 4 }

/-- The day/night section at the end of each main-loop iteration
(main.cpp, lines 449-482), acting on the flag and on the enemies present
on the board (the loop scans every square's enemy slot and applies
`setTimeOfDay` to those that `dynamic_cast` to `Orc*`).  Returns the new
flag and the updated enemy list. -/
def dayNightStep (commandCount : Nat) (isNight : Bool)
    (enemies : List Character) : Bool × List Character :=
  if commandCount % 10 < 5 then
    if isNight then
      (false, enemies.map (fun c =>
        if c.race = Race.orc then setTimeOfDay false c else c))
    else
      (isNight, enemies)
  else
    if isNight = false then
      (true, enemies.map (fun c =>
        if c.race = Race.orc then setTimeOfDay true c else c))
    else
      (isNight, enemies)

/-- The stat quadruple of a character: (attack, attack_chance, defence,
defence_chance). -/
def orcQuad (c : Character) : Int × ℚ × Int × ℚ :=
  (c.attack, c.attack_chance, c.defence, c.defence_chance)

/-- The Orc day quadruple {25, 0.25, 10, 0.25}. -/
def dayQuad : Int × ℚ × Int × ℚ := (25, mkRat 1 4, 10, mkRat 1 4)

/-- The Orc night quadruple {45, 1.0, 25, 0.5}. -/
def nightQuad : Int × ℚ × Int × ℚ := (45, 1, 25, mkRat 1 2)

/-- A board square (board.hpp): optional enemy, optional item, optional
player reference.  Characters and items are identified by numeric ids,
standing for the shared pointers. -/
structure Square where
  enemy : Option Nat := none
  item : Option Nat := none
  player : Option Nat := none
deriving DecidableEq, Repr

/-- The board grid (board.hpp): `vector<vector<shared_ptr<Square>>>`. -/
def Grid := List (List Square)
deriving DecidableEq, Repr

/-- A cell position (row, column). -/
abbrev Pos := Nat × Nat

/-- Safe list indexing, `l[n]` as an `Option`. -/
def nth : List α → Nat → Option α
  | [], _ => none
  | a :: _, 0 => some a
  | _ :: l, n + 1 => nth l n

/-- In-place list update at an index (no-op when out of range). -/
def setNth : List α → Nat → α → List α
  | [], _, _ => []
  | _ :: l, 0, b => b :: l
  | a :: l, n + 1, b => a :: setNth l n b

/-- `grid[x][y]` as an `Option`. -/
def squareAt (g : Grid) (p : Pos) : Option Square :=
  (nth g p.1).bind (fun row => nth row p.2)

/-- Mutate the square at `p` in place (models writing through the shared
pointer `grid[x][y]`); a no-op when `p` is out of range. -/
def setSq (g : Grid) (p : Pos) (f : Square → Square) : Grid :=
  match nth g p.1 with
  | none => g
  | some row =>
    match nth row p.2 with
    | none => g
    | some sq => setNth g p.1 (setNth row p.2 (f sq))

/-- One retry loop of `Board::populateBoard` (board.cpp): each attempt
consumes one draw pair `(d1, d2)` (two consecutive `rand()` values),
targets cell `(d1 % height, d2 % width)`, and retries while the cell
fails the `free` test.  Returns the chosen position and the unconsumed
draws, or `none` when the draw list runs out (the placement did not
terminate within the given draws) or an index is out of range. -/
def placeLoop (free : Square → Bool) (g : Grid) (h w : Nat) :
    List (Nat × Nat) → Option (Pos × List (Nat × Nat))
  | [] => none
  | d :: rest =>
    let p : Pos := (d.1 % h, d.2 % w)
    match squareAt g p with
    | some sq => if free sq then some (p, rest) else placeLoop free g h w rest
    | none => none

/-- The enemy-placement phase of `Board::populateBoard` (board.cpp,
lines 38-49): each enemy goes to a random cell whose enemy slot is empty.
Returns the final grid, the chosen positions in order, and the remaining
draws. -/
def placeEnemies (g : Grid) (h w : Nat) :
    List Nat → List (Nat × Nat) → Option (Grid × List Pos × List (Nat × Nat))
  | [], ds => some (g, [], ds)
  | e :: es, ds =>
    match placeLoop (fun sq => sq.enemy.isNone) g h w ds with
    | none => none
    | some (p, rest) =>
      match placeEnemies (setSq g p (fun sq => { sq with enemy := some e }))
          h w es rest with
      | none => none
      | some (g2, ps, rest2) => some (g2, p :: ps, rest2)

/-- The item-placement phase of `Board::populateBoard` (board.cpp,
lines 52-63): each item goes to a random cell holding neither an enemy
nor an item. -/
def placeItems (g : Grid) (h w : Nat) :
    List Nat → List (Nat × Nat) → Option (Grid × List Pos × List (Nat × Nat))
  | [], ds => some (g, [], ds)
  | i :: is, ds =>
    match placeLoop (fun sq => sq.enemy.isNone && sq.item.isNone) g h w ds with
    | none => none
    | some (p, rest) =>
      match placeItems (setSq g p (fun sq => { sq with item := some i }))
          h w is rest with
      | none => none
      | some (g2, ps, rest2) => some (g2, p :: ps, rest2)

/-- `Board::populateBoard(enemies, items)` (board.cpp): place all enemies,
then all items.  The `srand(time(nullptr))` reseed is modelled by taking
the stream of draws as an input.  Returns the final grid and the
positions chosen for the enemies and for the items. -/
def populateBoard (g : Grid) (h w : Nat) (enemies items : List Nat)
    (draws : List (Nat × Nat)) : Option (Grid × List Pos × List Pos) :=
  match placeEnemies g h w enemies draws with
  | none => none
  | some (g1, eps, rest) =>
    match placeItems g1 h w items rest with
    | none => none
    | some (g2, ips, _) => some (g2, eps, ips)

/-- Optional-field accessor: the contribution of an optionally equipped
item, 0 when the slot is empty. -/
def oget (o : Option α) (f : α → Int) : Int :=
  match o with
  | some x => f x
  | none => 0

/-- A character with 95 units of equipped weight and base strength 100,
for the carrying-capacity example. -/
def heavyCharacter : Character :=
  { mkHuman "Heavy" with armor := some ⟨"Heavy Plate", 95, 10, 5, false⟩ }

/-- A weight-10 weapon for the carrying-capacity example. -/
def tenKiloItem : Item := .weapon ⟨"Maul", 10, 10⟩

/-- A defender whose equipped Ring of Strength makes getTotalHealth
negative while the health field is positive. -/
def riggedDefender : Character :=
  { mkHuman "Defender" with health := 1, ring := [ringOfStrengthData] }

/-- A defender with low health, zero defence, zero defence chance and a
Ring of Strength (health delta -10), used to exercise the damage branch
of `attack`. -/
def fragileDefender : Character :=
  { mkHuman "Fragile" with health := 5, defence := 0, defence_chance := 0,
                           ring := [ringOfStrengthData] }

/-- Two characters with identical base stats and equipment but different
names and inventories, for the purity part of the totals claim. -/
def twinA : Character := { mkHuman "A" with inventory := [swordItem] }

/-- Companion of `twinA` with an empty inventory. -/
def twinB : Character := mkHuman "B"

/-- An empty 2 by 2 grid for the board-population witness. -/
def demoGrid : Grid := [[{}, {}], [{}, {}]]

/-- The grid obtained from `demoGrid` by placing enemy 0 at (0,0) and
item 7 at (0,1). -/
def demoGridAfter : Grid :=
  [[{ enemy := some 0 }, { item := some 7 }], [{}, {}]]

theorem foldl_add_map (f : α → Int) :
    ∀ (l : List α) (s : Int),
      l.foldl (fun t r => t + f r) s = s + (l.map f).sum := by
  intro l
  induction l with
  | nil => intro s; simp
  | cons a l ih =>
    intro s
    simp only [List.foldl, List.map, List.sum_cons]
    rw [ih]
    ring

/-- Claim C7: the four derived totals are pure functions of the base
stats and currently equipped items, with
totalAttack = baseAttack + weapon attack bonus - armor attack penalty
- shield attack penalty + sum of ring strength bonuses,
totalDefence = baseDefence + armor and shield defence bonuses,
totalStrength = baseStrength + sum of ring strength bonuses,
totalHealth = health + sum of ring health deltas; two characters that
agree on base stats and equipment have equal totals. -/
theorem totals_formulas (c c2 : Character) :
    (getTotalAttack c = c.attack + oget c.weapon WeaponData.attack_inc
      - oget c.armor ArmourData.attack_dec - oget c.shield ArmourData.attack_dec
      + (c.ring.map RingData.strength_inc).sum) ∧
    (getTotalDefence c = c.defence + oget c.armor ArmourData.defence_inc
      + oget c.shield ArmourData.defence_inc) ∧
    (getTotalStrength c = c.strength + (c.ring.map RingData.strength_inc).sum) ∧
    (getTotalHealth c = c.health + (c.ring.map RingData.health).sum) ∧
    (c.attack = c2.attack → c.defence = c2.defence → c.health = c2.health →
     c.strength = c2.strength → c.weapon = c2.weapon → c.armor = c2.armor →
     c.shield = c2.shield → c.ring = c2.ring →
     getTotalAttack c = getTotalAttack c2 ∧
     getTotalDefence c = getTotalDefence c2 ∧
     getTotalStrength c = getTotalStrength c2 ∧
     getTotalHealth c = getTotalHealth c2) := by
  have hA : ∀ d : Character, getTotalAttack d = d.attack
      + oget d.weapon WeaponData.attack_inc - oget d.armor ArmourData.attack_dec
      - oget d.shield ArmourData.attack_dec
      + (d.ring.map RingData.strength_inc).sum := by
    intro d
    unfold getTotalAttack
    cases d.weapon <;> cases d.armor <;> cases d.shield <;>
      simp [oget, foldl_add_map]
  have hD : ∀ d : Character, getTotalDefence d = d.defence
      + oget d.armor ArmourData.defence_inc + oget d.shield ArmourData.defence_inc := by
    intro d
    unfold getTotalDefence
    cases d.armor <;> cases d.shield <;> simp [oget]
  have hS : ∀ d : Character,
      getTotalStrength d = d.strength + (d.ring.map RingData.strength_inc).sum := by
    intro d
    unfold getTotalStrength
    rw [foldl_add_map]
  have hH : ∀ d : Character,
      getTotalHealth d = d.health + (d.ring.map RingData.health).sum := by
    intro d
    unfold getTotalHealth
    rw [foldl_add_map]
  refine ⟨hA c, hD c, hS c, hH c, ?_⟩
  intro h1 h2 h3 h4 h5 h6 h7 h8
  refine ⟨?_, ?_, ?_, ?_⟩
  · rw [hA c, hA c2, h1, h5, h6, h7, h8]
  · rw [hD c, hD c2, h2, h6, h7]
  · rw [hS c, hS c2, h4, h8]
  · rw [hH c, hH c2, h3, h8]

/-- Witness for claim C7: `twinA` and `twinB` differ only in name and
inventory, so all four totals coincide. -/
theorem totals_formulas_witness :
    getTotalAttack twinA = getTotalAttack twinB ∧
    getTotalDefence twinA = getTotalDefence twinB ∧
    getTotalStrength twinA = getTotalStrength twinB ∧
    getTotalHealth twinA = getTotalHealth twinB :=
  (totals_formulas twinA twinB).2.2.2.2 (by decide) (by decide) (by decide)
    (by decide) (by decide) (by decide) (by decide) (by decide)

/-- Claim C4: `pickUp` rejects (returns false) exactly when equipped
weight plus the new item's weight exceeds the base strength field, and a
rejected pickup leaves the character entirely unchanged. -/
theorem pickUp_rejects_iff_overweight (c : Character) (item : Item) :
    ((pickUp c item).1 = false ↔ getCurrentWeight c + item.weight > c.strength) ∧
    ((pickUp c item).1 = false → (pickUp c item).2 = c) := by
  unfold pickUp
  by_cases h : getCurrentWeight c + item.weight > c.strength
  · simp [h]
  · cases item <;> simp [h, castWeapon, castArmour, castShield, castRing]

/-- Witness for claim C4: strength 100, equipped weight 95, new item
weight 10 is rejected and the character is unchanged. -/
theorem pickUp_rejects_iff_overweight_witness :
    (pickUp heavyCharacter tenKiloItem).1 = false ∧
    (pickUp heavyCharacter tenKiloItem).2 = heavyCharacter := by
  have h := pickUp_rejects_iff_overweight heavyCharacter tenKiloItem
  exact ⟨h.1.mpr (by decide), h.2 (h.1.mpr (by decide))⟩

/-- Claim C8: an accepted pickup of a Weapon leaves the inventory list
unchanged, and an accepted pickup of any non-Weapon item (Armour, Shield
or Ring) appends the item to the inventory list. -/
theorem pickUp_inventory_effect (c : Character) (item : Item)
    (hacc : (pickUp c item).1 = true) :
    ((castWeapon item).isSome → (pickUp c item).2.inventory = c.inventory) ∧
    ((castWeapon item).isNone → (pickUp c item).2.inventory = c.inventory ++ [item]) := by
  unfold pickUp at hacc ⊢
  by_cases h : getCurrentWeight c + item.weight > c.strength
  · simp [h] at hacc
  · cases item <;> simp [h, castWeapon, castArmour, castShield, castRing]

/-- Witness for claim C8: a fresh Human accepts the Sword with no
inventory change, and accepts the Ring of Life with the ring appended to
the inventory. -/
theorem pickUp_inventory_effect_witness :
    (pickUp (mkHuman "Fresh") swordItem).2.inventory = (mkHuman "Fresh").inventory ∧
    (pickUp (mkHuman "Fresh") ringOfLifeItem).2.inventory =
      (mkHuman "Fresh").inventory ++ [ringOfLifeItem] :=
  ⟨(pickUp_inventory_effect (mkHuman "Fresh") swordItem (by decide)).1 (by decide),
   (pickUp_inventory_effect (mkHuman "Fresh") ringOfLifeItem (by decide)).2 (by decide)⟩

/-- Claim C10: each drop operation clears its equipment slot (or removes
the indexed ring when the index is valid) and never removes anything from
the inventory list. -/
theorem drops_preserve_inventory (c : Character) (index : Int) :
    (dropWeapon c).weapon = none ∧
    (dropArmour c).armor = none ∧
    (dropShield c).shield = none ∧
    (dropRing c index).ring =
      (if 0 ≤ index ∧ index < (c.ring.length : Int)
       then c.ring.eraseIdx index.toNat else c.ring) ∧
    (dropWeapon c).inventory = c.inventory ∧
    (dropArmour c).inventory = c.inventory ∧
    (dropShield c).inventory = c.inventory ∧
    (dropRing c index).inventory = c.inventory := by
  unfold dropWeapon dropArmour dropShield dropRing
  refine ⟨?_, ?_, ?_, ?_, ?_, ?_, ?_, ?_⟩ <;>
    split <;> simp_all [Option.isSome_iff_ne_none]

/-- Claim C1 (code evaluation at the failing input): when a defending
Elf with health 40 wins the defense roll, `attack` calls the statically
dispatched, empty `Character::successfulDef` (the method is not declared
`virtual` in characters.hpp), so the defender is returned unchanged with
health 40 rather than 41, even though the body of `Elf::successfulDef`
taken on its own would produce 41. -/
theorem attack_elf_defense_success_no_heal :
    (attack (mkHuman "Bob") (mkElf "Legolas") 0 0).defSuccess = true ∧
    (attack (mkHuman "Bob") (mkElf "Legolas") 0 0).defender = mkElf "Legolas" ∧
    (mkElf "Legolas").health = 40 ∧
    (Elf_successfulDef (mkElf "Legolas")).health = 41 := by
  decide

/-- Claim C2 (code evaluation at the failing input): picking up the
Large Shield is accepted but equips it into the armor slot (the
`dynamic_pointer_cast<Armour>` branch fires first because `Shield`
derives from `Armour`), leaving the shield slot empty. -/
theorem pickUp_shield_lands_in_armor_slot :
    (pickUp (mkHuman "Player") largeShieldItem).1 = true ∧
    (pickUp (mkHuman "Player") largeShieldItem).2.armor =
      some ⟨"Large Shield", 30, 10, 5, true⟩ ∧
    (pickUp (mkHuman "Player") largeShieldItem).2.shield = none := by
  decide

/-- Counterexample to claim C3 as stated: after an attack on
`riggedDefender` (health field 1, Ring of Strength with health delta
-10), the main-loop defeated check reports the defender defeated even
though the health field is positive, so the report is not equivalent to
`health <= 0`. -/
theorem defeated_report_without_health_depletion :
    mainDefeatedCheck (attack (mkHuman "Bob") riggedDefender 1 0) = true ∧
    ¬ ((attack (mkHuman "Bob") riggedDefender 1 0).defender.health ≤ 0) := by
  decide

/-- Claim C3 as amended: after every combat resolution the defender is
reported defeated exactly when `getTotalHealth` of the resulting
defender, that is the health field plus the sum of the equipped rings'
health deltas, is at most 0. -/
theorem defeated_report_iff_total_health (a d : Character) (r1 r2 : ℚ) :
    mainDefeatedCheck (attack a d r1 r2) = true ↔
    (attack a d r1 r2).defender.health +
      ((attack a d r1 r2).defender.ring.map RingData.health).sum ≤ 0 := by
  simp [mainDefeatedCheck, getTotalHealth, foldl_add_map]

/-- Counterexample to claim C5 as stated: with attacker `mkElf "Atk"`
(total attack 40) and `fragileDefender` (total defence 0, health 5, Ring
of Strength with health delta -10), the damage branch runs and ends with
health -10: the result is not floored at 0, because the final cap sets
health to `getTotalHealth` computed from the already-reduced health. -/
theorem attack_health_floor_violated :
    (attack (mkElf "Atk") fragileDefender 0 0).missed = false ∧
    (attack (mkElf "Atk") fragileDefender 0 0).defSuccess = false ∧
    getTotalAttack (mkElf "Atk") > getTotalDefence fragileDefender ∧
    (attack (mkElf "Atk") fragileDefender 0 0).defender.health = -10 := by
  decide

/-- Claim C5 as amended: when neither the miss branch nor the
defense-success branch is taken, if totalAttack exceeds totalDefence the
health becomes max 0 (health - damage) and then, when the sum of ring
health deltas is negative, the cap against the self-referential
`getTotalHealth` further adds that negative sum (possibly taking health
below 0); when the ring health sum is nonnegative the result is exactly
max 0 (health - damage).  If totalAttack does not exceed totalDefence
the defender's health is unchanged. -/
theorem attack_damage_branch_formula (a d : Character) (r1 r2 : ℚ)
    (hmiss : ¬ r1 > a.attack_chance) (hdef : ¬ r2 < d.defence_chance) :
    (attack a d r1 r2).defender.health =
      (if getTotalAttack a > getTotalDefence d then
        (if (d.ring.map RingData.health).sum < 0 then
          max 0 (d.health - (getTotalAttack a - getTotalDefence d))
            + (d.ring.map RingData.health).sum
         else
          max 0 (d.health - (getTotalAttack a - getTotalDefence d)))
       else d.health) := by
  unfold attack
  rw [if_neg hmiss, if_neg hdef]
  by_cases hdmg : getTotalAttack a > getTotalDefence d
  · rw [if_pos hdmg, if_pos hdmg]
    simp only [getTotalHealth, foldl_add_map]
    split_ifs <;> simp_all <;> omega
  · rw [if_neg hdmg, if_neg hdmg]

/-- Witness for claim C5 (amended): the formula evaluated on
`mkElf "Atk"` versus `fragileDefender` with rolls 0, 0 gives health -10. -/
theorem attack_damage_branch_formula_witness :
    (attack (mkElf "Atk") fragileDefender 0 0).defender.health = -10 := by
  have h := attack_damage_branch_formula (mkElf "Atk") fragileDefender 0 0
    (by decide) (by decide)
  exact h.trans (by decide)

theorem orc_map_setTimeOfDay (b : Bool) (enemies : List Character) :
    ∀ c ∈ enemies.map (fun c =>
        if c.race = Race.orc then setTimeOfDay b c else c),
      c.race = Race.orc → orcQuad c = (if b then nightQuad else dayQuad) := by
  intro c hc hr
  rcases List.mem_map.mp hc with ⟨c0, _, hc0⟩
  by_cases h : c0.race = Race.orc
  · rw [if_pos h] at hc0
    subst hc0
    cases b <;> simp [setTimeOfDay, orcQuad, nightQuad, dayQuad]
  · rw [if_neg h] at hc0
    subst hc0
    exact absurd hr h

/-- Claim C9: whenever the day/night flag flips in the main-loop
day/night section, every Orc on the board has its
(attack, attack_chance, defence, defence_chance) quadruple overwritten
to (25, 0.25, 10, 0.25) on a flip to day and (45, 1.0, 25, 0.5) on a
flip to night; consequently, if before the step every Orc's quadruple
matches the flag, after the step every Orc's quadruple matches the new
flag. -/
theorem dayNight_orc_stats (cnt : Nat) (flag : Bool)
    (enemies : List Character) :
    ((dayNightStep cnt flag enemies).1 ≠ flag →
      ∀ c ∈ (dayNightStep cnt flag enemies).2, c.race = Race.orc →
        orcQuad c =
          (if (dayNightStep cnt flag enemies).1 then nightQuad else dayQuad)) ∧
    ((∀ c ∈ enemies, c.race = Race.orc →
        orcQuad c = (if flag then nightQuad else dayQuad)) →
      ∀ c ∈ (dayNightStep cnt flag enemies).2, c.race = Race.orc →
        orcQuad c =
          (if (dayNightStep cnt flag enemies).1 then nightQuad else dayQuad)) := by
  by_cases hcnt : cnt % 10 < 5
  · cases flag with
    | false =>
      have hstep : dayNightStep cnt false enemies = (false, enemies) := by
        simp [dayNightStep, hcnt]
      rw [hstep]
      exact ⟨fun h => absurd rfl h, fun hinv => hinv⟩
    | true =>
      have hstep : dayNightStep cnt true enemies =
          (false, enemies.map (fun c =>
            if c.race = Race.orc then setTimeOfDay false c else c)) := by
        simp [dayNightStep, hcnt]
      rw [hstep]
      exact ⟨fun _ => orc_map_setTimeOfDay false enemies,
             fun _ => orc_map_setTimeOfDay false enemies⟩
  · cases flag with
    | false =>
      have hstep : dayNightStep cnt false enemies =
          (true, enemies.map (fun c =>
            if c.race = Race.orc then setTimeOfDay true c else c)) := by
        simp [dayNightStep, hcnt]
      rw [hstep]
      exact ⟨fun _ => orc_map_setTimeOfDay true enemies,
             fun _ => orc_map_setTimeOfDay true enemies⟩
    | true =>
      have hstep : dayNightStep cnt true enemies = (true, enemies) := by
        simp [dayNightStep, hcnt]
      rw [hstep]
      exact ⟨fun h => absurd rfl h, fun hinv => hinv⟩

/-- Witness for claim C9: at command count 5 with the flag at day, the
step flips to night and an Orc's quadruple is overwritten to the night
values (45, 1.0, 25, 0.5). -/
theorem dayNight_orc_stats_witness :
    orcQuad (setTimeOfDay true (mkOrc "Azog")) = nightQuad := by
  have h := (dayNight_orc_stats 5 false [mkOrc "Azog"]).2 (by decide)
    (setTimeOfDay true (mkOrc "Azog")) (by decide) (by decide)
  exact h.trans (by decide)

theorem nth_setNth_self (b : α) :
    ∀ (l : List α) (n : Nat),
      nth (setNth l n b) n = (nth l n).map (fun _ => b) := by
  intro l
  induction l with
  | nil => intro n; cases n <;> simp [nth, setNth]
  | cons a l ih =>
    intro n
    cases n with
    | zero => simp [nth, setNth]
    | succ m => simp [nth, setNth, ih]

theorem nth_setNth_ne (b : α) :
    ∀ (l : List α) (n m : Nat), m ≠ n →
      nth (setNth l n b) m = nth l m := by
  intro l
  induction l with
  | nil => intro n m _; cases n <;> simp [nth, setNth]
  | cons a l ih =>
    intro n m hne
    cases n with
    | zero =>
      cases m with
      | zero => exact absurd rfl hne
      | succ k => simp [nth, setNth]
    | succ j =>
      cases m with
      | zero => simp [nth, setNth]
      | succ k =>
        simp only [nth, setNth]
        exact ih j k (fun h => hne (by rw [h]))

theorem setSq_eq_of_no_row (g : Grid) (p : Pos) (f : Square → Square)
    (hr : nth g p.1 = none) : setSq g p f = g := by
  unfold setSq
  simp [hr]

theorem setSq_eq_of_no_square (g : Grid) (p : Pos) (f : Square → Square)
    (row : List Square) (hr : nth g p.1 = some row)
    (hs : nth row p.2 = none) : setSq g p f = g := by
  unfold setSq
  simp [hr, hs]

theorem setSq_eq_of_square (g : Grid) (p : Pos) (f : Square → Square)
    (row : List Square) (sq : Square) (hr : nth g p.1 = some row)
    (hs : nth row p.2 = some sq) :
    setSq g p f = setNth g p.1 (setNth row p.2 (f sq)) := by
  unfold setSq
  simp [hr, hs]

theorem squareAt_setSq_self (g : Grid) (p : Pos) (f : Square → Square) :
    squareAt (setSq g p f) p = (squareAt g p).map f := by
  cases hr : nth g p.1 with
  | none =>
    rw [setSq_eq_of_no_row g p f hr]
    simp [squareAt, hr]
  | some row =>
    cases hs : nth row p.2 with
    | none =>
      rw [setSq_eq_of_no_square g p f row hr hs]
      simp [squareAt, hr, hs]
    | some sq =>
      rw [setSq_eq_of_square g p f row sq hr hs]
      simp [squareAt, nth_setNth_self, hr, hs]

theorem squareAt_setSq_ne (g : Grid) (p q : Pos) (f : Square → Square)
    (hne : q ≠ p) : squareAt (setSq g p f) q = squareAt g q := by
  cases hr : nth g p.1 with
  | none => rw [setSq_eq_of_no_row g p f hr]
  | some row =>
    cases hs : nth row p.2 with
    | none => rw [setSq_eq_of_no_square g p f row hr hs]
    | some sq =>
      rw [setSq_eq_of_square g p f row sq hr hs]
      by_cases hx : q.1 = p.1
      · have hy : q.2 ≠ p.2 := by
          intro hy
          exact hne (Prod.ext_iff.mpr ⟨hx, hy⟩)
        simp [squareAt, hx, nth_setNth_self, hr, nth_setNth_ne _ _ _ _ hy]
      · simp [squareAt, nth_setNth_ne _ _ _ _ hx]

theorem squareAt_setEnemy_item (g : Grid) (p q : Pos) (e : Nat) :
    (squareAt (setSq g p (fun sq => { sq with enemy := some e })) q).map
        Square.item
      = (squareAt g q).map Square.item := by
  by_cases h : q = p
  · subst h
    rw [squareAt_setSq_self]
    cases squareAt g q <;> simp
  · rw [squareAt_setSq_ne g p q _ h]

theorem squareAt_setItem_enemy (g : Grid) (p q : Pos) (i : Nat) :
    (squareAt (setSq g p (fun sq => { sq with item := some i })) q).map
        Square.enemy
      = (squareAt g q).map Square.enemy := by
  by_cases h : q = p
  · subst h
    rw [squareAt_setSq_self]
    cases squareAt g q <;> simp
  · rw [squareAt_setSq_ne g p q _ h]

theorem placeLoop_spec (free : Square → Bool) (g : Grid) (h w : Nat) :
    ∀ (ds : List (Nat × Nat)) (p : Pos) (rest : List (Nat × Nat)),
      placeLoop free g h w ds = some (p, rest) →
      ∃ sq, squareAt g p = some sq ∧ free sq = true := by
  intro ds
  induction ds with
  | nil => intro p rest hp; simp [placeLoop] at hp
  | cons d ds ih =>
    intro p rest hp
    rw [placeLoop] at hp
    cases hsq : squareAt g (d.1 % h, d.2 % w) with
    | none => rw [hsq] at hp; simp at hp
    | some sq =>
      rw [hsq] at hp
      dsimp only at hp
      by_cases hf : free sq
      · rw [if_pos hf] at hp
        simp only [Option.some.injEq, Prod.mk.injEq] at hp
        obtain ⟨hp1, _⟩ := hp
        exact ⟨sq, hp1 ▸ hsq, hf⟩
      · rw [if_neg hf] at hp
        exact ih p rest hp

theorem placeEnemies_spec (h w : Nat) :
    ∀ (es : List Nat) (g : Grid) (ds : List (Nat × Nat)) (g2 : Grid)
      (ps : List Pos) (rest : List (Nat × Nat)),
      placeEnemies g h w es ds = some (g2, ps, rest) →
      (∀ p ∈ ps, ∃ sq, squareAt g p = some sq ∧ sq.enemy = none) ∧
      ps.Nodup ∧
      (∀ q, (squareAt g2 q).map Square.item = (squareAt g q).map Square.item) ∧
      (∀ q, q ∉ ps →
        (squareAt g2 q).map Square.enemy = (squareAt g q).map Square.enemy) ∧
      (∀ p ∈ ps, ∃ sq, squareAt g2 p = some sq ∧ sq.enemy ≠ none) := by
  intro es
  induction es with
  | nil =>
    intro g ds g2 ps rest hp
    simp only [placeEnemies, Option.some.injEq, Prod.mk.injEq] at hp
    obtain ⟨rfl, rfl, rfl⟩ := hp
    simp
  | cons e es ih =>
    intro g ds g2 ps rest hp
    unfold placeEnemies at hp
    cases hloop : placeLoop (fun sq => sq.enemy.isNone) g h w ds with
    | none => rw [hloop] at hp; simp at hp
    | some pr =>
      obtain ⟨p, ds1⟩ := pr
      rw [hloop] at hp
      dsimp only at hp
      cases hrec : placeEnemies
          (setSq g p (fun sq => { sq with enemy := some e })) h w es ds1 with
      | none => rw [hrec] at hp; simp at hp
      | some out =>
        obtain ⟨g3, ps3, rest3⟩ := out
        rw [hrec] at hp
        simp only [Option.some.injEq, Prod.mk.injEq] at hp
        obtain ⟨rfl, rfl, rfl⟩ := hp
        obtain ⟨sqp, hsqp, hfb⟩ := placeLoop_spec _ g h w ds p ds1 hloop
        have henemy : sqp.enemy = none := Option.isNone_iff_eq_none.mp hfb
        have hg1p : squareAt (setSq g p (fun sq => { sq with enemy := some e })) p
            = some { sqp with enemy := some e } := by
          rw [squareAt_setSq_self, hsqp]
          rfl
        obtain ⟨I1, I2, I3, I4, I5⟩ :=
          ih (setSq g p (fun sq => { sq with enemy := some e })) ds1 g3 ps3 rest3 hrec
        have hpnot : p ∉ ps3 := by
          intro hmem
          obtain ⟨sq1, hsq1, he1⟩ := I1 p hmem
          rw [hg1p] at hsq1
          injection hsq1 with hsq1
          rw [← hsq1] at he1
          simp at he1
        refine ⟨?_, List.nodup_cons.mpr ⟨hpnot, I2⟩, ?_, ?_, ?_⟩
        · intro q hq
          rcases List.mem_cons.mp hq with hqe | hq3
          · subst hqe
            exact ⟨sqp, hsqp, henemy⟩
          · obtain ⟨sq1, hsq1, he1⟩ := I1 q hq3
            have hqp : q ≠ p := by
              rintro rfl
              rw [hg1p] at hsq1
              injection hsq1 with hsq1
              rw [← hsq1] at he1
              simp at he1
            rw [squareAt_setSq_ne g p q _ hqp] at hsq1
            exact ⟨sq1, hsq1, he1⟩
        · intro q
          rw [I3 q, squareAt_setEnemy_item]
        · intro q hq
          have hqp : q ≠ p := by
            rintro rfl
            exact hq (List.mem_cons_self _ _)
          have hq3 : q ∉ ps3 := fun hh => hq (List.mem_cons_of_mem _ hh)
          rw [I4 q hq3, squareAt_setSq_ne g p q _ hqp]
        · intro q hq
          rcases List.mem_cons.mp hq with hqe | hq3
          · subst hqe
            have hmap := I4 q hpnot
            rw [hg1p] at hmap
            cases hg3q : squareAt g3 q with
            | none => rw [hg3q] at hmap; simp at hmap
            | some sqf =>
              rw [hg3q] at hmap
              simp only [Option.map_some'] at hmap
              injection hmap with hmap
              refine ⟨sqf, rfl, ?_⟩
              rw [hmap]
              simp
          · exact I5 q hq3

theorem placeItems_spec (h w : Nat) :
    ∀ (its : List Nat) (g : Grid) (ds : List (Nat × Nat)) (g2 : Grid)
      (ps : List Pos) (rest : List (Nat × Nat)),
      placeItems g h w its ds = some (g2, ps, rest) →
      (∀ p ∈ ps, ∃ sq, squareAt g p = some sq ∧
        sq.enemy = none ∧ sq.item = none) ∧
      ps.Nodup ∧
      (∀ q, (squareAt g2 q).map Square.enemy = (squareAt g q).map Square.enemy) ∧
      (∀ q, q ∉ ps →
        (squareAt g2 q).map Square.item = (squareAt g q).map Square.item) ∧
      (∀ p ∈ ps, ∃ sq, squareAt g2 p = some sq ∧ sq.item ≠ none) := by
  intro its
  induction its with
  | nil =>
    intro g ds g2 ps rest hp
    simp only [placeItems, Option.some.injEq, Prod.mk.injEq] at hp
    obtain ⟨rfl, rfl, rfl⟩ := hp
    simp
  | cons i its ih =>
    intro g ds g2 ps rest hp
    unfold placeItems at hp
    cases hloop : placeLoop (fun sq => sq.enemy.isNone && sq.item.isNone)
        g h w ds with
    | none => rw [hloop] at hp; simp at hp
    | some pr =>
      obtain ⟨p, ds1⟩ := pr
      rw [hloop] at hp
      dsimp only at hp
      cases hrec : placeItems
          (setSq g p (fun sq => { sq with item := some i })) h w its ds1 with
      | none => rw [hrec] at hp; simp at hp
      | some out =>
        obtain ⟨g3, ps3, rest3⟩ := out
        rw [hrec] at hp
        simp only [Option.some.injEq, Prod.mk.injEq] at hp
        obtain ⟨rfl, rfl, rfl⟩ := hp
        obtain ⟨sqp, hsqp, hfb⟩ := placeLoop_spec _ g h w ds p ds1 hloop
        rw [Bool.and_eq_true] at hfb
        have henemy : sqp.enemy = none := Option.isNone_iff_eq_none.mp hfb.1
        have hitem : sqp.item = none := Option.isNone_iff_eq_none.mp hfb.2
        have hg1p : squareAt (setSq g p (fun sq => { sq with item := some i })) p
            = some { sqp with item := some i } := by
          rw [squareAt_setSq_self, hsqp]
          rfl
        obtain ⟨I1, I2, I3, I4, I5⟩ :=
          ih (setSq g p (fun sq => { sq with item := some i })) ds1 g3 ps3 rest3 hrec
        have hpnot : p ∉ ps3 := by
          intro hmem
          obtain ⟨sq1, hsq1, _, hi1⟩ := I1 p hmem
          rw [hg1p] at hsq1
          injection hsq1 with hsq1
          rw [← hsq1] at hi1
          simp at hi1
        refine ⟨?_, List.nodup_cons.mpr ⟨hpnot, I2⟩, ?_, ?_, ?_⟩
        · intro q hq
          rcases List.mem_cons.mp hq with hqe | hq3
          · subst hqe
            exact ⟨sqp, hsqp, henemy, hitem⟩
          · obtain ⟨sq1, hsq1, he1, hi1⟩ := I1 q hq3
            have hqp : q ≠ p := by
              rintro rfl
              rw [hg1p] at hsq1
              injection hsq1 with hsq1
              rw [← hsq1] at hi1
              simp at hi1
            rw [squareAt_setSq_ne g p q _ hqp] at hsq1
            exact ⟨sq1, hsq1, he1, hi1⟩
        · intro q
          rw [I3 q, squareAt_setItem_enemy]
        · intro q hq
          have hqp : q ≠ p := by
            rintro rfl
            exact hq (List.mem_cons_self _ _)
          have hq3 : q ∉ ps3 := fun hh => hq (List.mem_cons_of_mem _ hh)
          rw [I4 q hq3, squareAt_setSq_ne g p q _ hqp]
        · intro q hq
          rcases List.mem_cons.mp hq with hqe | hq3
          · subst hqe
            have hmap := I4 q hpnot
            rw [hg1p] at hmap
            cases hg3q : squareAt g3 q with
            | none => rw [hg3q] at hmap; simp at hmap
            | some sqf =>
              rw [hg3q] at hmap
              simp only [Option.map_some'] at hmap
              injection hmap with hmap
              refine ⟨sqf, rfl, ?_⟩
              rw [hmap]
              simp
          · exact I5 q hq3

/-- Claim C6: for every board, every sequence of random draws and every
enemy and item list whose placement terminates, after `populateBoard` the
enemy placements are pairwise distinct cells that held no enemy before,
each item placement is a cell that held no item before and holds no
enemy in the final grid, and no item was placed on a cell where an enemy
was placed. -/
theorem populateBoard_no_collisions (g : Grid) (h w : Nat)
    (enemies items : List Nat) (draws : List (Nat × Nat))
    (g2 : Grid) (eps ips : List Pos)
    (hp : populateBoard g h w enemies items draws = some (g2, eps, ips)) :
    eps.Nodup ∧ ips.Nodup ∧
    (∀ p ∈ eps, ∃ sq, squareAt g p = some sq ∧ sq.enemy = none) ∧
    (∀ p ∈ ips, ∃ sq, squareAt g p = some sq ∧ sq.item = none) ∧
    (∀ p ∈ ips, ∃ sq, squareAt g2 p = some sq ∧ sq.enemy = none) ∧
    (∀ p ∈ eps, p ∉ ips) := by
  unfold populateBoard at hp
  cases hen : placeEnemies g h w enemies draws with
  | none => rw [hen] at hp; simp at hp
  | some oe =>
    obtain ⟨g1, eps1, rest1⟩ := oe
    rw [hen] at hp
    dsimp only at hp
    cases hit : placeItems g1 h w items rest1 with
    | none => rw [hit] at hp; simp at hp
    | some oi =>
      obtain ⟨g3, ips1, rest3⟩ := oi
      rw [hit] at hp
      simp only [Option.some.injEq, Prod.mk.injEq] at hp
      obtain ⟨rfl, rfl, rfl⟩ := hp
      obtain ⟨E1, E2, E3, E4, E5⟩ :=
        placeEnemies_spec h w enemies g draws g1 eps1 rest1 hen
      obtain ⟨I1, I2, I3, I4, I5⟩ :=
        placeItems_spec h w items g1 rest1 g3 ips1 rest3 hit
      refine ⟨E2, I2, E1, ?_, ?_, ?_⟩
      · intro p hp1
        obtain ⟨sq1, hsq1, _, hi1⟩ := I1 p hp1
        have hmap := E3 p
        rw [hsq1] at hmap
        simp only [Option.map_some'] at hmap
        cases hgp : squareAt g p with
        | none => rw [hgp] at hmap; simp at hmap
        | some sq0 =>
          rw [hgp] at hmap
          simp only [Option.map_some'] at hmap
          injection hmap with hmap
          refine ⟨sq0, rfl, ?_⟩
          rw [← hmap]
          exact hi1
      · intro p hp1
        obtain ⟨sq1, hsq1, he1, _⟩ := I1 p hp1
        have hmap := I3 p
        rw [hsq1] at hmap
        simp only [Option.map_some'] at hmap
        cases hg3p : squareAt g3 p with
        | none => rw [hg3p] at hmap; simp at hmap
        | some sqf =>
          rw [hg3p] at hmap
          simp only [Option.map_some'] at hmap
          injection hmap with hmap
          refine ⟨sqf, rfl, ?_⟩
          rw [hmap]
          exact he1
      · intro p hpe hpi
        obtain ⟨sqe, hsqe, henem⟩ := E5 p hpe
        obtain ⟨sq1, hsq1, henem1, _⟩ := I1 p hpi
        rw [hsqe] at hsq1
        injection hsq1 with hsq1
        rw [← hsq1] at henem1
        exact henem henem1

/-- Witness for claim C6: on the empty 2 by 2 `demoGrid` with one enemy,
one item and the draw stream (0,0), (0,1), population terminates with
the enemy at (0,0) and the item at (0,1); the placement lists are
duplicate-free and disjoint. -/
theorem populateBoard_no_collisions_witness :
    ([((0 : Nat), (0 : Nat))] : List Pos).Nodup ∧
    ([((0 : Nat), (1 : Nat))] : List Pos).Nodup ∧
    (((0 : Nat), (0 : Nat)) : Pos) ∉ ([((0 : Nat), (1 : Nat))] : List Pos) := by
  have hcall := populateBoard_no_collisions demoGrid 2 2 [0] [7] [(0, 0), (0, 1)]
      demoGridAfter [(0, 0)] [(0, 1)] (by decide)
  exact ⟨hcall.1, hcall.2.1, hcall.2.2.2.2.2 (0, 0) (by decide)⟩
